import Mathlib

/-!
Verification of the behavioral specification of `storage3/_sync/file_api.py`
(the File Operations component of a storage client) against a shallow
embedding of that file.

Modelling conventions:
* Python strings are modelled as `List Char` (`Str`): a Python `str` is a
  sequence of code points.  Literals enter the model through `chars`.
* Python dicts are modelled as insertion-ordered association lists with
  unique keys (the CPython invariant).  `pyInsert` is `d[k] = v`
  (update-in-place if the key exists, append otherwise), `pyMerge a b`
  folds `b`'s items into `a`, so that a dict display such as
  `\x7b**a, **b, **c\x7d` is `pyMerge (pyMerge (pyMerge [] a) b) c`.
* The HTTP transport (`self._client.request`, out of scope per the spec) is
  modelled by passing the operation the single `Response` the transport
  would return; the parts of the outgoing request the claims observe are
  returned to the caller as data.
* Fallible Python code is modelled with `Except PyErr`.
-/

set_option maxRecDepth 10000

namespace Storage3

/-- Python strings as sequences of code points. -/
abbrev Str := List Char

/-- Conversion of a Lean string literal to the Python string model. -/
def chars (s : String) : Str := s.data

/-! ### Python dict model (insertion-ordered association lists, unique keys) -/

/-- Dict lookup `d.get(k)` / `d[k]`: value of the first entry with key `k`. -/
def pyGet {α : Type} : List (Str × α) → Str → Option α
  | [], _ => none
  | p :: t, k => if p.1 = k then some p.2 else pyGet t k

/-- Dict assignment `d[k] = v`: if the key is present its slot is updated in
place (CPython keeps the position), otherwise the entry is appended. -/
def pyInsert {α : Type} : List (Str × α) → Str → α → List (Str × α)
  | [], k, v => [(k, v)]
  | p :: t, k, v => if p.1 = k then (k, v) :: t else p :: pyInsert t k v

/-- Right-biased dict merge: fold the items of `b` into `a`, as evaluating a
dict display `\x7b**a, **b\x7d` does. -/
def pyMerge {α : Type} (a b : List (Str × α)) : List (Str × α) :=
  b.foldl (fun d kv => pyInsert d kv.1 kv.2) a

/-- Dict `d.pop(k)`: the removed value together with the remaining dict, or
`none` (a `KeyError`) when the key is absent. -/
def pyPop {α : Type} : List (Str × α) → Str → Option (α × List (Str × α))
  | [], _ => none
  | p :: t, k =>
    if p.1 = k then some (p.2, t)
    else (pyPop t k).map (fun r => (r.1, p :: r.2))

/-- Decidable equality for `Except`, needed to evaluate concrete runs of
the fallible operations. -/
instance {ε α : Type} [DecidableEq ε] [DecidableEq α] : DecidableEq (Except ε α) := fun x y =>
  match x, y with
  | .ok a, .ok b =>
      if h : a = b then isTrue (by rw [h]) else isFalse (fun he => h (Except.ok.inj he))
  | .error a, .error b =>
      if h : a = b then isTrue (by rw [h]) else isFalse (fun he => h (Except.error.inj he))
  | .ok _, .error _ => isFalse (fun he => Except.noConfusion he)
  | .error _, .ok _ => isFalse (fun he => Except.noConfusion he)

/-! ### JSON values, error taxonomy, transport responses -/

/-- Scalar JSON values, as they occur in the response fields the claims
inspect.  Nested objects and arrays below the top level of a body are not
needed by any claim and are elided. -/
inductive JVal : Type where
  | s (v : Str)
  | n (v : Nat)
  | b (v : Bool)
  | null
deriving DecidableEq, Repr

/-- A JSON object: a Python dict produced by `json.loads`. -/
abbrev JObj := List (Str × JVal)

/-- A decoded JSON body: the operations in the file only ever treat it as an
object or as an array of objects. -/
inductive JBody : Type where
  | obj (fields : JObj)
  | arr (items : List JObj)
deriving DecidableEq, Repr

/-- Modelled from the spec: `StorageException` is defined in
`storage3/utils.py`, which is not among the provided sources; the spec
describes it as the single structured storage-domain error type, raised
either with the decoded error body merged with the status code (API error)
or with a descriptive message (contract violation).  The remaining
constructors are the built-in Python exceptions the translated code can
raise. -/
inductive PyErr : Type where
  | storage (data : JObj)
  | storageMsg (msg : Str)
  | jsonDecode
  | keyErr
  | typeErr
  | osError
deriving DecidableEq, Repr

/-- A transport response: its status code and its JSON-decoded body
(`none` when `response.json()` would raise a decode error). -/
structure Response : Type where
  statusCode : Nat
  json : Option JBody
deriving DecidableEq, Repr

/-- httpx success statuses: `raise_for_status` raises outside 2xx. -/
def statusIsSuccess (code : Nat) : Bool := decide (200 ≤ code ∧ code < 300)

/-- The parent client collaborator: its configured base URL
(`str(self._client.base_url)`) and default header mapping. -/
structure SyncClient : Type where
  baseUrl : Str
  headers : List (Str × Str)

/-- The receiver of the file-API methods: a bucket id plus the shared
client, the fields `SyncBucketActionsMixin` declares. -/
structure SyncBucketActionsMixin : Type where
  id : Str
  client : SyncClient

/-- Translation of `SyncBucketActionsMixin._request` (file_api.py:34-56):
on a success status the response is returned; otherwise a
`StorageException` carrying `\x7b**response.json(), "statusCode":
response.status_code\x7d` is raised.  A body that fails to decode makes
`response.json()` raise (propagated), and a body that decodes to an array
makes the `**` unpacking raise a `TypeError`. -/
def _request (resp : Response) : Except PyErr Response :=
  if statusIsSuccess resp.statusCode then .ok resp
  else
    match resp.json with
    | none => .error .jsonDecode
    | some (.obj fields) =>
        .error (.storage (pyInsert fields (chars "statusCode") (.n resp.statusCode)))
    | some (.arr _) => .error .typeErr

/-- Translation of `SyncBucketActionsMixin._get_final_path`
(file_api.py:388-389): the object key is the bucket id, a slash, and the
caller's relative path, verbatim. -/
def SyncBucketActionsMixin._get_final_path
    (self : SyncBucketActionsMixin) (path : Str) : Str :=
  self.id ++ chars "/" ++ path

/-! ### `urllib.parse` model

`urlparse`/`geturl` are modelled by splitting off the fragment (first `#`)
and then the query (first `?` of the remainder), and by rejoining the
pieces, reinstating a separator only when the piece after it is non-empty —
exactly the observable behavior of CPython's `urlparse(...).geturl()` on
URLs whose scheme is already lower-case (the round trip through the
scheme/netloc/path decomposition is the identity on such inputs). -/

/-- Split a list at the first occurrence of `sep`: the part before it and,
when `sep` occurs, the part after it. -/
def splitFirst (sep : Char) : Str → Str × Option Str
  | [] => ([], none)
  | c :: cs =>
    if c = sep then ([], some cs)
    else
      let r := splitFirst sep cs
      (c :: r.1, r.2)

/-- The components of `urllib.parse.urlparse` an operation in the file
observes: everything before the query, the query, and the fragment. -/
structure ParseResult : Type where
  preQuery : Str
  query : Str
  fragment : Str
deriving DecidableEq, Repr

/-- Model of `urllib.parse.urlparse`. -/
def urlparse (s : Str) : ParseResult :=
  let f := splitFirst '#' s
  let q := splitFirst '?' f.1
  { preQuery := q.1, query := (q.2).getD [], fragment := (f.2).getD [] }

/-- Model of `ParseResult.geturl`: CPython re-appends `?`/`#` only when the
query/fragment is non-empty. -/
def ParseResult.geturl (p : ParseResult) : Str :=
  p.preQuery ++ (if p.query = [] then [] else '?' :: p.query)
    ++ (if p.fragment = [] then [] else '#' :: p.fragment)

/-- Python `s.split(sep)` for a one-character separator: empty parts are
kept and the empty string splits to one empty part. -/
def pySplit (sep : Char) : Str → List Str
  | [] => [[]]
  | c :: rest =>
    if c = sep then [] :: pySplit sep rest
    else
      match pySplit sep rest with
      | s :: ss => (c :: s) :: ss
      | [] => [[c]]

/-- Numeric value of a hexadecimal digit, accepting both cases, as
`urllib.parse.unquote` does. -/
def hexVal? (c : Char) : Option Nat :=
  let n := c.toNat
  if 48 ≤ n ∧ n ≤ 57 then some (n - 48)
  else if 65 ≤ n ∧ n ≤ 70 then some (n - 55)
  else if 97 ≤ n ∧ n ≤ 102 then some (n - 87)
  else none

/-- Model of `unquote_plus` as `parse_qsl` applies it (a `+`-to-space
replacement followed by percent-decoding; the two never interact because
hex digits are neither `+` nor space).  Each decoded `%XX` escape yields
the single character of that byte — faithful for the ASCII range; the
reassembly of multi-byte UTF-8 sequences is elided, which no claim
observes.  Invalid escapes are kept verbatim, as CPython keeps them. -/
def unquotePlus : Str → Str
  | [] => []
  | '%' :: a :: b :: rest =>
    match hexVal? a, hexVal? b with
    | some ha, some hb => Char.ofNat (16 * ha + hb) :: unquotePlus rest
    | _, _ => '%' :: unquotePlus (a :: b :: rest)
  | '+' :: rest => ' ' :: unquotePlus rest
  | c :: rest => c :: unquotePlus rest

/-- Model of `urllib.parse.parse_qsl` with its default arguments: the query
is split on `&`; a part without `=` or with an empty value is dropped
(`keep_blank_values=False`); names and values are unquoted. -/
def parseQsl (q : Str) : List (Str × Str) :=
  (pySplit '&' q).filterMap (fun part =>
    match splitFirst '=' part with
    | (_, none) => none
    | (n, some v) => if v = [] then none else some (unquotePlus n, unquotePlus v))

/-- One step of `parse_qs`'s grouping loop: append the value to the entry
of its name, creating the entry when absent. -/
def qsAdd : List (Str × List Str) → Str → Str → List (Str × List Str)
  | [], k, v => [(k, [v])]
  | p :: t, k, v =>
    if p.1 = k then (p.1, p.2 ++ [v]) :: t else p :: qsAdd t k v

/-- Model of `urllib.parse.parse_qs`: the `parse_qsl` pairs grouped into a
dict from names to the list of their values, in encounter order. -/
def parse_qs (q : Str) : List (Str × List Str) :=
  (parseQsl q).foldl (fun d kv => qsAdd d kv.1 kv.2) []

/-! ### `urlencode` model -/

/-- Characters `urllib.parse.quote` never escapes (with `safe=''`):
ASCII letters, digits, and `_.-~`. -/
def quoteSafe (c : Char) : Bool :=
  decide (('A' ≤ c ∧ c ≤ 'Z') ∨ ('a' ≤ c ∧ c ≤ 'z') ∨ ('0' ≤ c ∧ c ≤ '9')
    ∨ c = '_' ∨ c = '.' ∨ c = '-' ∨ c = '~')

/-- The UTF-8 encoding of one code point. -/
def utf8Bytes (c : Char) : List Nat :=
  let n := c.toNat
  if n < 0x80 then [n]
  else if n < 0x800 then [0xC0 + n / 64, 0x80 + n % 64]
  else if n < 0x10000 then
    [0xE0 + n / 4096, 0x80 + (n / 64) % 64, 0x80 + n % 64]
  else
    [0xF0 + n / 262144, 0x80 + (n / 4096) % 64, 0x80 + (n / 64) % 64, 0x80 + n % 64]

/-- Upper-case hexadecimal digit, as CPython's quoter emits
(code point 48 is `0`, code point 55 + 10 is `A`). -/
def hexDigit (n : Nat) : Char :=
  Char.ofNat (if n < 10 then 48 + n else 55 + n)

/-- `quote_plus` on one character: space becomes `+`, safe characters pass
through, everything else is percent-encoded per UTF-8 byte. -/
def quotePlusChar (c : Char) : Str :=
  if c = ' ' then ['+']
  else if quoteSafe c then [c]
  else ((utf8Bytes c).map (fun b => ['%', hexDigit (b / 16), hexDigit (b % 16)])).flatten

/-- Model of `urllib.parse.quote_plus` with `safe=''`. -/
def quotePlus (s : Str) : Str := (s.map quotePlusChar).flatten

/-- One `name=value` piece of an encoded query string. -/
def encPair (p : Str × Str) : Str := quotePlus p.1 ++ '=' :: quotePlus p.2

/-- Model of `urllib.parse.urlencode` on a dict of strings: the
`quote_plus`-encoded `name=value` pieces joined with `&`, in dict order. -/
def urlencode : List (Str × Str) → Str
  | [] => []
  | [p] => encPair p
  | p :: q :: rest => encPair p ++ '&' :: urlencode (q :: rest)

/-! ### Signed upload URLs -/

/-- The result dict of `create_signed_upload_url`. -/
structure SignedUploadURL : Type where
  signed_url : Str
  token : Str
  path : Str
deriving DecidableEq, Repr

/-- Extraction of a response's JSON body as an object: `response.json()`
raises on an undecodable body, and treating an array as a dict raises a
`TypeError` at its first dict-style use. -/
def jsonObj (resp : Response) : Except PyErr JObj :=
  match resp.json with
  | none => .error .jsonDecode
  | some (.obj fields) => .ok fields
  | some (.arr _) => .error .typeErr

/-- Translation of `SyncBucketActionsMixin.create_signed_upload_url`
(file_api.py:58-80).  The outgoing `POST /object/upload/sign/{key}`
carries no observable payload, so only the response interpretation is
modelled: the configured base URL and the body's `url` field are
concatenated (note: the source strips no leading slash here), the result
is parsed, the `token` query parameter is required to be present, and the
reassembled URL, first token value, and caller path are returned. -/
def SyncBucketActionsMixin.create_signed_upload_url
    (self : SyncBucketActionsMixin) (path : Str) (resp : Response) :
    Except PyErr SignedUploadURL := do
  let response ← _request resp
  let data ← jsonObj response
  let u ← match pyGet data (chars "url") with
    | some (.s u) => Except.ok u
    | some _ => Except.error .typeErr
    | none => Except.error .keyErr
  let full_url := urlparse (self.client.baseUrl ++ u)
  let query_params := parse_qs full_url.query
  match pyGet query_params (chars "token") with
  | some (t :: _) => .ok ⟨full_url.geturl, t, path⟩
  | _ => .error (.storageMsg (chars "No token sent by the API"))

/-! ### Batch signed URLs -/

/-- The body of the loop in `create_signed_urls` (file_api.py:199-202):
`item["signedURL"] = f"{base_url}{item['signedURL'].lstrip('/')}"` —
`lstrip('/')` removes every leading slash.  A missing `signedURL` key is a
`KeyError`; a non-string value makes `.lstrip` raise. -/
def rewriteSignedURL (baseUrl : Str) (item : JObj) : Except PyErr JObj :=
  match pyGet item (chars "signedURL") with
  | some (.s u) =>
      .ok (pyInsert item (chars "signedURL") (.s (baseUrl ++ u.dropWhile (· = '/'))))
  | some _ => .error .typeErr
  | none => .error .keyErr

/-- The `for item in data` loop over the response array. -/
def rewriteSignedURLs (baseUrl : Str) : List JObj → Except PyErr (List JObj)
  | [] => .ok []
  | item :: rest => do
      let item' ← rewriteSignedURL baseUrl item
      let rest' ← rewriteSignedURLs baseUrl rest
      .ok (item' :: rest')

/-- Translation of `SyncBucketActionsMixin.create_signed_urls`
(file_api.py:176-203).  The outgoing request (`POST /object/sign/{id}`
with the paths and expiry in the JSON body) is not observed by the claims;
the response interpretation rewrites each item's `signedURL` in place.  A
body decoding to a single object would make the loop iterate over its
keys, failing at the first string index (`TypeError`). -/
def SyncBucketActionsMixin.create_signed_urls
    (self : SyncBucketActionsMixin) (paths : List Str) (resp : Response) :
    Except PyErr (List JObj) := do
  let _ := paths
  let response ← _request resp
  let data ← match response.json with
    | none => Except.error .jsonDecode
    | some (.arr items) => Except.ok items
    | some (.obj _) => Except.error .typeErr
  rewriteSignedURLs self.client.baseUrl data

/-! ### Public URLs -/

/-- Python truthiness of `options.get("transform")` for string-valued
options: present and non-empty. -/
def transformTruthy (options : List (Str × Str)) : Bool :=
  match pyGet options (chars "transform") with
  | some v => !v.isEmpty
  | none => false

/-- Translation of `SyncBucketActionsMixin.get_public_url`
(file_api.py:205-216): a pure URL construction — rendering endpoint when
`options.get("transform")` is truthy, URL-encoded options as the query
string (with no `?` at all when the encoding is empty), over the final
object key. -/
def SyncBucketActionsMixin.get_public_url
    (self : SyncBucketActionsMixin) (path : Str) (options : List (Str × Str)) : Str :=
  let render_path := if transformTruthy options then chars "render/image" else chars "object"
  let transformation_query := urlencode options
  let query_string := if transformation_query = [] then [] else '?' :: transformation_query
  self.client.baseUrl ++ render_path ++ chars "/public/"
    ++ self._get_final_path path ++ query_string

/-! ### Uploads

Both `upload` (file_api.py:330-386) and `upload_to_signed_url`
(file_api.py:82-143) share the same request-building steps: mutate the
caller's `file_options` dict (the `cache-control` rewrite assigns into the
caller-supplied mapping), merge the three header layers right-biased,
derive the multipart filename from the relative path, resolve the payload
(bytes used as-is, a filesystem path opened for reading — and never
closed), and pop the resolved `content-type` out of the headers into the
multipart part descriptor. -/

/-- The two payload shapes of the upload union: an in-memory byte buffer or
byte stream (`BufferedReader`/`bytes`/`FileIO`), carrying the bytes it
yields, or a filesystem path (`str`/`Path`). -/
inductive UploadSource : Type where
  | buf (content : List Nat)
  | path (p : Str)
deriving DecidableEq, Repr

/-- File-handle lifecycle events of one operation, in program order. -/
inductive FileEvent : Type where
  | opened (p : Str)
  | closed (p : Str)
deriving DecidableEq, Repr

/-- The one multipart part the upload request carries:
`\x7b"file": (filename, content, content_type)\x7d`. -/
structure MultipartFile : Type where
  partName : Str
  filename : Str
  content : List Nat
  contentType : Str
deriving DecidableEq, Repr

/-- An outgoing upload request as the transport receives it. -/
structure UploadRequest : Type where
  method : Str
  url : Str
  headers : List (Str × Str)
  filePart : MultipartFile
deriving DecidableEq, Repr

/-- The `cache-control` rewrite (file_api.py:351-353): when the caller's
dict has a truthy `cache-control` value it is overwritten in place with
`"max-age=" + value`; a falsy value (the empty string) is left alone. -/
def rewriteCacheControl (file_options : List (Str × Str)) : List (Str × Str) :=
  match pyGet file_options (chars "cache-control") with
  | some v =>
      if v = [] then file_options
      else pyInsert file_options (chars "cache-control") (chars "max-age=" ++ v)
  | none => file_options

/-- The header merge (file_api.py:355-359):
`\x7b**self._client.headers, **DEFAULT_FILE_OPTIONS, **file_options\x7d`
after the cache-control rewrite.  `DEFAULT_FILE_OPTIONS` lives in
`storage3/constants.py`, which is not among the provided sources; the spec
fixes only that it supplies defaults for absent file options, so the
default map is an explicit parameter here. -/
def uploadHeaders (clientHeaders defaults file_options : List (Str × Str)) :
    List (Str × Str) :=
  pyMerge (pyMerge (pyMerge [] clientHeaders) defaults) (rewriteCacheControl file_options)

/-- The final segment of a relative path:
`path.rsplit("/", maxsplit=1)[-1]`. -/
def lastSegment (path : Str) : Str :=
  ((path.reverse.takeWhile (· ≠ '/'))).reverse

/-- What request building produces: the headers and multipart part on
success, the post-call state of the caller's `file_options` mapping (the
source mutates it in place, so this is visible to the caller even on
failure), and the file-handle events that occurred. -/
structure BuildResult : Type where
  outcome : Except PyErr (List (Str × Str) × MultipartFile)
  fileOptionsAfter : List (Str × Str)
  events : List FileEvent

/-- The request-building steps shared verbatim by `upload`
(file_api.py:349-377) and `upload_to_signed_url` (file_api.py:108-137).
In the source, the part tuple `(filename, open(file, "rb"),
headers.pop("content-type"))` evaluates left to right, so for a path
payload the handle is opened before the pop; no close ever occurs.
`fs` models the filesystem: the bytes at a path, or `none` when `open`
raises. -/
def buildUploadParts (clientHeaders defaults : List (Str × Str)) (path : Str)
    (file : UploadSource) (file_options : Option (List (Str × Str)))
    (fs : Str → Option (List Nat)) : BuildResult :=
  let fo' := rewriteCacheControl (file_options.getD [])
  let headers := pyMerge (pyMerge (pyMerge [] clientHeaders) defaults) fo'
  let filename := lastSegment path
  match file with
  | .buf content =>
      match pyPop headers (chars "content-type") with
      | some (ct, headers') =>
          ⟨.ok (headers', ⟨chars "file", filename, content, ct⟩), fo', []⟩
      | none => ⟨.error .keyErr, fo', []⟩
  | .path p =>
      match fs p with
      | none => ⟨.error .osError, fo', []⟩
      | some content =>
          match pyPop headers (chars "content-type") with
          | some (ct, headers') =>
              ⟨.ok (headers', ⟨chars "file", filename, content, ct⟩), fo', [.opened p]⟩
          | none => ⟨.error .keyErr, fo', [.opened p]⟩

/-- The observable outcome of one upload call: the transport interaction
result (the request that was sent and the success response, or the raised
error), the post-call state of the caller's options mapping, and the
file-handle event trace. -/
structure UploadRun : Type where
  result : Except PyErr (UploadRequest × Response)
  fileOptionsAfter : List (Str × Str)
  events : List FileEvent

/-- Translation of `SyncBucketActionsMixin.upload` (file_api.py:330-386):
build the multipart request, `POST /object/{key}`, interpret the response
through `_request`.  No file-handle close appears anywhere in the source,
so none is ever appended to the event trace. -/
def SyncBucketActionsMixin.upload (self : SyncBucketActionsMixin) (path : Str)
    (file : UploadSource) (file_options : Option (List (Str × Str)))
    (fs : Str → Option (List Nat)) (defaults : List (Str × Str))
    (resp : Response) : UploadRun :=
  let b := buildUploadParts self.client.headers defaults path file file_options fs
  match b.outcome with
  | .error e => ⟨.error e, b.fileOptionsAfter, b.events⟩
  | .ok (headers, part) =>
      let url := chars "/object/" ++ self._get_final_path path
      match _request resp with
      | .error e => ⟨.error e, b.fileOptionsAfter, b.events⟩
      | .ok r => ⟨.ok (⟨chars "POST", url, headers, part⟩, r), b.fileOptionsAfter, b.events⟩

/-- Translation of `SyncBucketActionsMixin.upload_to_signed_url`
(file_api.py:82-143): the target is
`f"{urlparse(f'/object/upload/sign/{key}').geturl()}?{urlencode(token)}"`,
the request building is the same as `upload`'s, the method is `PUT`. -/
def SyncBucketActionsMixin.upload_to_signed_url (self : SyncBucketActionsMixin)
    (path token : Str) (file : UploadSource)
    (file_options : Option (List (Str × Str)))
    (fs : Str → Option (List Nat)) (defaults : List (Str × Str))
    (resp : Response) : UploadRun :=
  let _url := urlparse (chars "/object/upload/sign/" ++ self._get_final_path path)
  let query_params := urlencode [(chars "token", token)]
  let final_url := _url.geturl ++ '?' :: query_params
  let b := buildUploadParts self.client.headers defaults path file file_options fs
  match b.outcome with
  | .error e => ⟨.error e, b.fileOptionsAfter, b.events⟩
  | .ok (headers, part) =>
      match _request resp with
      | .error e => ⟨.error e, b.fileOptionsAfter, b.events⟩
      | .ok r => ⟨.ok (⟨chars "PUT", final_url, headers, part⟩, r), b.fileOptionsAfter, b.events⟩

/-! ### Concrete sample data for evaluating the operations on explicit inputs -/

/-- A concrete client with the spec's example base URL and no default headers. -/
def exClient : SyncClient := { baseUrl := chars "https://x/", headers := [] }

/-- A concrete bucket handle over `exClient`. -/
def exMixin : SyncBucketActionsMixin := { id := chars "b", client := exClient }

/-- The signed-upload response of the spec's worked example. -/
def exSignResp : Response :=
  { statusCode := 200,
    json := some (.obj [(chars "url", .s (chars "/object/upload/sign/b/p?token=abc"))]) }

/-- A successful signed-upload response whose url carries an empty `token`. -/
def exNoTokenResp : Response :=
  { statusCode := 200,
    json := some (.obj [(chars "url", .s (chars "/object/upload/sign/b/p?token="))]) }

/-- The failing response of the spec's worked error example. -/
def exErrResp : Response :=
  { statusCode := 404, json := some (.obj [(chars "error", .s (chars "not found"))]) }

/-- A concrete filesystem holding the byte `7` at every path. -/
def exFs : Str → Option (List Nat) := fun _ => some [7]

/-! ## Helper lemmas about the dict model -/

theorem pyGet_pyInsert_self {α : Type} (d : List (Str × α)) (k : Str) (v : α) :
    pyGet (pyInsert d k v) k = some v := by
  induction d with
  | nil => simp [pyInsert, pyGet]
  | cons p t ih =>
    by_cases h : p.1 = k
    · simp [pyInsert, pyGet, h]
    · simp [pyInsert, pyGet, h, ih]

theorem pyGet_pyInsert_ne {α : Type} (d : List (Str × α)) (k : Str) (v : α)
    (k' : Str) (h : k' ≠ k) : pyGet (pyInsert d k v) k' = pyGet d k' := by
  have hkk' : ¬(k = k') := fun he => h he.symm
  induction d with
  | nil => simp [pyInsert, pyGet, hkk']
  | cons p t ih =>
    by_cases hp : p.1 = k
    · subst hp
      simp [pyInsert, pyGet, hkk']
    · simp [pyInsert, pyGet, hp, ih]

theorem pyGet_eq_none_of_not_mem {α : Type} {d : List (Str × α)} {k : Str}
    (h : k ∉ d.map Prod.fst) : pyGet d k = none := by
  induction d with
  | nil => rfl
  | cons p t ih =>
    simp only [List.map_cons, List.mem_cons, not_or] at h
    have hp : ¬(p.1 = k) := fun he => h.1 he.symm
    simp [pyGet, hp, ih h.2]

theorem pyInsert_cons_eq {α : Type} {p : Str × α} {t : List (Str × α)} {k : Str}
    (v : α) (hp : p.1 = k) : pyInsert (p :: t) k v = (k, v) :: t := by
  simp [pyInsert, hp]

theorem pyInsert_cons_ne {α : Type} {p : Str × α} {t : List (Str × α)} {k : Str}
    (v : α) (hp : ¬(p.1 = k)) : pyInsert (p :: t) k v = p :: pyInsert t k v := by
  simp [pyInsert, hp]

theorem mem_keys_pyInsert {α : Type} {d : List (Str × α)} {k : Str} {v : α} {a : Str}
    (h : a ∈ (pyInsert d k v).map Prod.fst) : a ∈ d.map Prod.fst ∨ a = k := by
  induction d with
  | nil =>
    rw [show pyInsert ([] : List (Str × α)) k v = [(k, v)] from rfl,
      List.map_cons, List.map_nil, List.mem_singleton] at h
    exact .inr h
  | cons p t ih =>
    by_cases hp : p.1 = k
    · rw [pyInsert_cons_eq v hp, List.map_cons, List.mem_cons] at h
      rcases h with h | h
      · exact .inr h
      · exact .inl (List.mem_cons_of_mem _ h)
    · rw [pyInsert_cons_ne v hp, List.map_cons, List.mem_cons] at h
      rcases h with h | h
      · exact .inl (h ▸ List.mem_cons_self _ _)
      · rcases ih h with h' | h'
        · exact .inl (List.mem_cons_of_mem _ h')
        · exact .inr h'

theorem nodupKeys_pyInsert {α : Type} {d : List (Str × α)} (k : Str) (v : α)
    (hd : (d.map Prod.fst).Nodup) : ((pyInsert d k v).map Prod.fst).Nodup := by
  induction d with
  | nil => simp [pyInsert]
  | cons p t ih =>
    simp only [List.map_cons, List.nodup_cons] at hd
    by_cases hp : p.1 = k
    · rw [pyInsert_cons_eq v hp, List.map_cons]
      exact List.nodup_cons.mpr ⟨hp ▸ hd.1, hd.2⟩
    · rw [pyInsert_cons_ne v hp, List.map_cons]
      refine List.nodup_cons.mpr ⟨fun hmem => ?_, ih hd.2⟩
      rcases mem_keys_pyInsert hmem with h' | h'
      · exact hd.1 h'
      · exact hp h'

theorem pyMerge_nil {α : Type} (a : List (Str × α)) : pyMerge a [] = a := rfl

theorem pyMerge_cons {α : Type} (a : List (Str × α)) (p : Str × α) (t : List (Str × α)) :
    pyMerge a (p :: t) = pyMerge (pyInsert a p.1 p.2) t := rfl

theorem pyGet_pyMerge {α : Type} (a b : List (Str × α)) (k : Str)
    (hb : (b.map Prod.fst).Nodup) :
    pyGet (pyMerge a b) k = (pyGet b k).or (pyGet a k) := by
  induction b generalizing a with
  | nil => simp [pyMerge_nil, pyGet, Option.or]
  | cons p t ih =>
    simp only [List.map_cons, List.nodup_cons] at hb
    rw [pyMerge_cons, ih _ hb.2]
    by_cases hp : p.1 = k
    · subst hp
      rw [pyGet_eq_none_of_not_mem hb.1]
      simp [pyGet, pyGet_pyInsert_self, Option.or]
    · have hk : k ≠ p.1 := fun he => hp he.symm
      simp [pyGet, hp, pyGet_pyInsert_ne _ _ _ _ hk]

theorem nodupKeys_pyMerge {α : Type} (a b : List (Str × α))
    (ha : (a.map Prod.fst).Nodup) : ((pyMerge a b).map Prod.fst).Nodup := by
  induction b generalizing a with
  | nil => exact ha
  | cons p t ih => exact pyMerge_cons a p t ▸ ih _ (nodupKeys_pyInsert p.1 p.2 ha)

theorem pyPop_of_pyGet {α : Type} {d : List (Str × α)} {k : Str} {v : α}
    (h : pyGet d k = some v) :
    ∃ d', pyPop d k = some (v, d') ∧
      (∀ k', k' ≠ k → pyGet d' k' = pyGet d k') ∧
      ((d.map Prod.fst).Nodup → pyGet d' k = none) := by
  induction d with
  | nil => simp [pyGet] at h
  | cons p t ih =>
    by_cases hp : p.1 = k
    · have hv : p.2 = v := by simpa [pyGet, hp] using h
      refine ⟨t, by simp [pyPop, hp, hv], fun k' hk' => ?_, fun hnd => ?_⟩
      · have hne : ¬(p.1 = k') := fun he => hk' (he.symm.trans hp)
        simp [pyGet, hne]
      · simp only [List.map_cons, List.nodup_cons] at hnd
        exact pyGet_eq_none_of_not_mem (hp ▸ hnd.1)
    · have h' : pyGet t k = some v := by simpa [pyGet, hp] using h
      obtain ⟨t', ht', hne, hnd⟩ := ih h'
      refine ⟨p :: t', by simp [pyPop, hp, ht'], fun k' hk' => ?_, fun hn => ?_⟩
      · by_cases hp' : p.1 = k'
        · simp [pyGet, hp']
        · simp [pyGet, hp', hne k' hk']
      · simp only [List.map_cons, List.nodup_cons] at hn
        simp [pyGet, hp, hnd hn.2]

theorem pyGet_mem {α : Type} {d : List (Str × α)} {k : Str} {v : α}
    (h : pyGet d k = some v) : (k, v) ∈ d := by
  induction d with
  | nil => simp [pyGet] at h
  | cons p t ih =>
    by_cases hp : p.1 = k
    · have hv : p.2 = v := by simpa [pyGet, hp] using h
      have hkv : (k, v) = p := by rw [← hp, ← hv]
      rw [hkv]
      exact List.mem_cons_self _ _
    · have h' : pyGet t k = some v := by simpa [pyGet, hp] using h
      exact List.mem_cons_of_mem _ (ih h')

/-! ## Helper lemmas about the URL model -/

theorem splitFirst_of_not_mem {sep : Char} {s : Str} (h : sep ∉ s) :
    splitFirst sep s = (s, none) := by
  induction s with
  | nil => rfl
  | cons c cs ih =>
    simp only [List.mem_cons, not_or] at h
    have hc : ¬(c = sep) := fun he => h.1 he.symm
    simp [splitFirst, hc, ih h.2]

theorem splitFirst_eq_append {sep : Char} {s a b : Str}
    (h : splitFirst sep s = (a, some b)) : s = a ++ sep :: b := by
  induction s generalizing a with
  | nil => simp [splitFirst] at h
  | cons c cs ih =>
    by_cases hc : c = sep
    · subst hc
      have h' : a = [] ∧ cs = b := by simpa [splitFirst] using h
      simp [h'.1, h'.2]
    · have h' : c :: (splitFirst sep cs).1 = a ∧ (splitFirst sep cs).2 = some b := by
        simpa [splitFirst, hc] using h
      rcases h' with ⟨ha, hb⟩
      have hcs := ih (a := (splitFirst sep cs).1) (Prod.ext rfl hb)
      rw [← ha, List.cons_append, ← hcs]

theorem geturl_urlparse {s : Str} (hh : '#' ∉ s) (hq : (urlparse s).query ≠ []) :
    (urlparse s).geturl = s := by
  have hf : splitFirst '#' s = (s, none) := splitFirst_of_not_mem hh
  rcases hsp : splitFirst '?' s with ⟨a, b⟩
  cases b with
  | none =>
    exfalso
    apply hq
    simp [urlparse, hf, hsp]
  | some q =>
    have hs : s = a ++ '?' :: q := splitFirst_eq_append hsp
    have hu : urlparse s = ⟨a, q, []⟩ := by simp [urlparse, hf, hsp]
    have hqne : q ≠ [] := by rw [hu] at hq; exact hq
    rw [hu]
    show a ++ (if q = [] then [] else '?' :: q) ++ (if ([] : Str) = [] then [] else '#' :: []) = s
    rw [if_neg hqne, if_pos rfl, List.append_nil]
    exact hs.symm

theorem unquotePlus_ne_nil {s : Str} (h : s ≠ []) : unquotePlus s ≠ [] := by
  rw [unquotePlus.eq_def]
  split
  · exact absurd rfl h
  · split <;> simp
  · simp
  · simp

theorem parseQsl_snd_ne_nil {q : Str} : ∀ kv ∈ parseQsl q, kv.2 ≠ [] := by
  intro kv hkv
  simp only [parseQsl, List.mem_filterMap] at hkv
  obtain ⟨part, _, hf⟩ := hkv
  rcases hsp : splitFirst '=' part with ⟨n, b⟩
  rw [hsp] at hf
  cases b with
  | none => simp at hf
  | some v =>
    by_cases hv : v = []
    · simp [hv] at hf
    · have : kv = (unquotePlus n, unquotePlus v) := by
        simpa [hv] using hf.symm
      rw [this]
      exact unquotePlus_ne_nil hv

theorem qsAdd_good {d : List (Str × List Str)} {k v : Str}
    (hd : ∀ p ∈ d, ∀ w ∈ p.2, w ≠ []) (hv : v ≠ []) :
    ∀ p ∈ qsAdd d k v, ∀ w ∈ p.2, w ≠ [] := by
  induction d with
  | nil =>
    intro p hp w hw
    simp only [qsAdd, List.mem_singleton] at hp
    subst hp
    simp only [List.mem_singleton] at hw
    exact hw ▸ hv
  | cons q t ih =>
    by_cases hq : q.1 = k
    · intro p hp w hw
      simp only [qsAdd, hq, if_true, List.mem_cons] at hp
      rcases hp with hp | hp
      · subst hp
        simp only [List.mem_append, List.mem_singleton] at hw
        rcases hw with hw | hw
        · exact hd q (List.mem_cons_self _ _) w hw
        · exact hw ▸ hv
      · exact hd p (List.mem_cons_of_mem _ hp) w hw
    · intro p hp w hw
      simp only [qsAdd, hq, if_false, List.mem_cons] at hp
      rcases hp with hp | hp
      · exact hd p (hp ▸ List.mem_cons_self _ _) w hw
      · exact ih (fun r hr => hd r (List.mem_cons_of_mem _ hr)) p hp w hw

theorem foldl_qsAdd_good {l : List (Str × Str)} {d : List (Str × List Str)}
    (hd : ∀ p ∈ d, ∀ w ∈ p.2, w ≠ []) (hl : ∀ kv ∈ l, kv.2 ≠ []) :
    ∀ p ∈ l.foldl (fun d kv => qsAdd d kv.1 kv.2) d, ∀ w ∈ p.2, w ≠ [] := by
  induction l generalizing d with
  | nil => exact hd
  | cons kv t ih =>
    exact ih (qsAdd_good hd (hl kv (List.mem_cons_self _ _)))
      (fun r hr => hl r (List.mem_cons_of_mem _ hr))

theorem parse_qs_good (q : Str) : ∀ p ∈ parse_qs q, ∀ w ∈ p.2, w ≠ [] :=
  foldl_qsAdd_good (by simp) (parseQsl_snd_ne_nil)

theorem parse_qs_head_ne_nil {q k : Str} {t : Str} {ts : List Str}
    (h : pyGet (parse_qs q) k = some (t :: ts)) : t ≠ [] :=
  parse_qs_good q (k, t :: ts) (pyGet_mem h) t (List.mem_cons_self _ _)

theorem encPair_ne_nil (p : Str × Str) : encPair p ≠ [] := by
  simp [encPair]

theorem urlencode_ne_nil {l : List (Str × Str)} (h : l ≠ []) : urlencode l ≠ [] := by
  match l with
  | [] => exact absurd rfl h
  | [p] => exact encPair_ne_nil p
  | p :: q :: rest => simp [urlencode, encPair]

/-- Reduction of a monadic bind on a succeeding `Except` step. -/
theorem exceptOkBind {ε α β : Type} (a : α) (f : α → Except ε β) :
    (Except.ok a >>= f : Except ε β) = f a := rfl

/-- Reduction of a monadic bind on a failing `Except` step. -/
theorem exceptErrorBind {ε α β : Type} (e : ε) (f : α → Except ε β) :
    (Except.error e >>= f : Except ε β) = Except.error e := rfl

/-! ## Claim theorems -/

/-- C4: for every bucket id and relative path, the path-resolution step used by
every file operation computes exactly the concatenation `id ++ "/" ++ path` —
a pure total function applying no validation, escaping, or other
transformation. -/
theorem C4_get_final_path_is_concat (self : SyncBucketActionsMixin) (path : Str) :
    self._get_final_path path = self.id ++ chars "/" ++ path := rfl

/-- C2: whenever the transport response's status indicates failure, `_request`
raises a storage error whose data is the JSON-decoded body merged with the
numeric status code under the key `statusCode` — the merged data answers
`statusCode` with the code and agrees with the body on every other key — and
when the failing body cannot be decoded as JSON that decoding failure
propagates instead of being swallowed. -/
theorem C2_request_error_normalization (resp : Response)
    (hfail : statusIsSuccess resp.statusCode = false) :
    (∀ fields, resp.json = some (.obj fields) →
      _request resp
          = .error (.storage (pyInsert fields (chars "statusCode") (.n resp.statusCode))) ∧
      pyGet (pyInsert fields (chars "statusCode") (.n resp.statusCode)) (chars "statusCode")
          = some (.n resp.statusCode) ∧
      (∀ k, k ≠ chars "statusCode" →
        pyGet (pyInsert fields (chars "statusCode") (.n resp.statusCode)) k = pyGet fields k)) ∧
    (resp.json = none → _request resp = .error .jsonDecode) := by
  constructor
  · intro fields hj
    refine ⟨?_, pyGet_pyInsert_self _ _ _, fun k hk => pyGet_pyInsert_ne _ _ _ _ hk⟩
    simp [_request, hfail, hj]
  · intro hj
    simp [_request, hfail, hj]

/-- Witness for C2 at the spec's example: body `\x7b"error": "not found"\x7d`
with status 404 yields error data
`\x7b"error": "not found", "statusCode": 404\x7d`. -/
theorem C2_request_error_normalization_witness :
    _request exErrResp
      = .error (.storage [(chars "error", .s (chars "not found")),
          (chars "statusCode", .n 404)]) := by
  have h := ((C2_request_error_normalization exErrResp (by decide)).1
    [(chars "error", .s (chars "not found"))] rfl).1
  exact h.trans (by decide)

/-- C1 counterexample: with base URL `https://x/` and a successful body whose
url is `/object/upload/sign/b/p?token=abc`, the source concatenates the base
URL and the relative url without stripping the latter's leading slash, so the
returned `signed_url` is `https://x//object/upload/sign/b/p?token=abc` — not
the claim's `https://x/object/upload/sign/b/p?token=abc`. -/
theorem C1_counterexample :
    exMixin.create_signed_upload_url (chars "p") exSignResp
      = .ok ⟨chars "https://x//object/upload/sign/b/p?token=abc", chars "abc", chars "p"⟩ ∧
    exMixin.create_signed_upload_url (chars "p") exSignResp
      ≠ .ok ⟨chars "https://x/object/upload/sign/b/p?token=abc", chars "abc", chars "p"⟩ := by
  decide

/-- C1 amended: given a successful signed-upload response with url field `u`
whose concatenation with the base URL contains no `#` and parses to a query
with a token value `t`, `create_signed_upload_url` returns exactly
`\x7bsigned_url: baseUrl ++ u, token: t, path: path\x7d` — the base URL is
prefixed to the relative url verbatim, with no leading-slash stripping. -/
theorem C1_signed_upload_url_amended (self : SyncBucketActionsMixin) (path : Str)
    (resp : Response) (fields : JObj) (u t : Str) (ts : List Str)
    (hs : statusIsSuccess resp.statusCode = true)
    (hj : resp.json = some (.obj fields))
    (hu : pyGet fields (chars "url") = some (.s u))
    (hh : '#' ∉ self.client.baseUrl ++ u)
    (ht : pyGet (parse_qs (urlparse (self.client.baseUrl ++ u)).query) (chars "token")
        = some (t :: ts)) :
    self.create_signed_upload_url path resp = .ok ⟨self.client.baseUrl ++ u, t, path⟩ := by
  have h1 : _request resp = .ok resp := by simp [_request, hs]
  have h2 : jsonObj resp = .ok fields := by simp [jsonObj, hj]
  have hqne : (urlparse (self.client.baseUrl ++ u)).query ≠ [] := by
    intro h0
    rw [h0] at ht
    simp [show parse_qs [] = [] from rfl, pyGet] at ht
  have hg : (urlparse (self.client.baseUrl ++ u)).geturl = self.client.baseUrl ++ u :=
    geturl_urlparse hh hqne
  simp [SyncBucketActionsMixin.create_signed_upload_url, h1, h2, hu, ht, hg, exceptOkBind, exceptErrorBind]

/-- Witness for C1's amended theorem at the worked example. -/
theorem C1_signed_upload_url_amended_witness :
    exMixin.create_signed_upload_url (chars "p") exSignResp
      = .ok ⟨chars "https://x/" ++ chars "/object/upload/sign/b/p?token=abc",
          chars "abc", chars "p"⟩ :=
  C1_signed_upload_url_amended exMixin (chars "p") exSignResp
    [(chars "url", .s (chars "/object/upload/sign/b/p?token=abc"))]
    (chars "/object/upload/sign/b/p?token=abc") (chars "abc") []
    (by decide) rfl (by decide) (by decide) (by decide)

/-- C3: `create_signed_upload_url` never returns a result whose token is the
empty string, and on a successful response whose url yields no token query
parameter (an absent or empty `token=` is dropped by the query parser) it
fails with the storage-domain error "No token sent by the API". -/
theorem C3_no_token_rejected (self : SyncBucketActionsMixin) (path : Str)
    (resp : Response) :
    (∀ r, self.create_signed_upload_url path resp = .ok r → r.token ≠ []) ∧
    (∀ fields u, statusIsSuccess resp.statusCode = true →
      resp.json = some (.obj fields) →
      pyGet fields (chars "url") = some (.s u) →
      (pyGet (parse_qs (urlparse (self.client.baseUrl ++ u)).query) (chars "token") = none ∨
        pyGet (parse_qs (urlparse (self.client.baseUrl ++ u)).query) (chars "token")
          = some []) →
      self.create_signed_upload_url path resp
        = .error (.storageMsg (chars "No token sent by the API"))) := by
  constructor
  · intro r hr
    cases hreq : _request resp with
    | error e => simp [SyncBucketActionsMixin.create_signed_upload_url, hreq, exceptOkBind, exceptErrorBind] at hr
    | ok resp' =>
      cases hjo : jsonObj resp' with
      | error e =>
        simp [SyncBucketActionsMixin.create_signed_upload_url, hreq, hjo, exceptOkBind, exceptErrorBind] at hr
      | ok fields =>
        cases hu : pyGet fields (chars "url") with
        | none => simp [SyncBucketActionsMixin.create_signed_upload_url, hreq, hjo, hu, exceptOkBind, exceptErrorBind] at hr
        | some jv =>
          cases jv with
          | s u =>
            cases htok : pyGet
                (parse_qs (urlparse (self.client.baseUrl ++ u)).query) (chars "token") with
            | none =>
              simp [SyncBucketActionsMixin.create_signed_upload_url,
                hreq, hjo, hu, htok, exceptOkBind, exceptErrorBind] at hr
            | some l =>
              cases l with
              | nil =>
                simp [SyncBucketActionsMixin.create_signed_upload_url,
                  hreq, hjo, hu, htok, exceptOkBind, exceptErrorBind] at hr
              | cons t ts =>
                have hrt : r.token = t := by
                  have := hr
                  simp [SyncBucketActionsMixin.create_signed_upload_url,
                    hreq, hjo, hu, htok, exceptOkBind, exceptErrorBind] at this
                  rw [← this]
                rw [hrt]
                exact parse_qs_head_ne_nil htok
          | n v => simp [SyncBucketActionsMixin.create_signed_upload_url, hreq, hjo, hu, exceptOkBind, exceptErrorBind] at hr
          | b v => simp [SyncBucketActionsMixin.create_signed_upload_url, hreq, hjo, hu, exceptOkBind, exceptErrorBind] at hr
          | null => simp [SyncBucketActionsMixin.create_signed_upload_url, hreq, hjo, hu, exceptOkBind, exceptErrorBind] at hr
  · intro fields u hs hj hu htok
    have h1 : _request resp = .ok resp := by simp [_request, hs]
    have h2 : jsonObj resp = .ok fields := by simp [jsonObj, hj]
    rcases htok with htok | htok <;>
      simp [SyncBucketActionsMixin.create_signed_upload_url, h1, h2, hu, htok,
        exceptOkBind, exceptErrorBind]

/-- Witness for C3 at a successful response whose url carries `token=`
(empty value): the operation fails with the contract-violation error. -/
theorem C3_no_token_rejected_witness :
    exMixin.create_signed_upload_url (chars "p") exNoTokenResp
      = .error (.storageMsg (chars "No token sent by the API")) :=
  (C3_no_token_rejected exMixin (chars "p") exNoTokenResp).2
    [(chars "url", .s (chars "/object/upload/sign/b/p?token="))]
    (chars "/object/upload/sign/b/p?token=") (by decide) rfl (by decide)
    (.inl (by decide))

/-- C6 counterexample: with `T = \x7b"transform": ""\x7d` the option set
contains a `transform` key, yet the produced URL uses the `object/public`
endpoint (the source tests the value's truthiness, and the empty value is
falsy), refuting the claim's "render/image/public if and only if T contains
a transform key". -/
theorem C6_counterexample :
    (chars "transform") ∈ ([(chars "transform", ([] : Str))].map Prod.fst) ∧
    exMixin.get_public_url (chars "p") [(chars "transform", [])]
      = chars "https://x/object/public/b/p?transform=" ∧
    ¬(chars "render/image/public" <:+:
        exMixin.get_public_url (chars "p") [(chars "transform", [])]) := by
  decide

/-- C6 amended: `get_public_url` ends with `?` followed by the URL-encoded
options whenever they are non-empty and appends no query (in particular no
trailing `?`, provided the path itself does not end in one) when they are
empty; the endpoint segment is `render/image` exactly when the option set
holds a `transform` key with a truthy (non-empty) value, and `object`
when the key is absent or its value is empty. -/
theorem C6_public_url_amended (self : SyncBucketActionsMixin) (path : Str)
    (T : List (Str × Str)) :
    (T ≠ [] → ('?' :: urlencode T) <:+ self.get_public_url path T) ∧
    (T = [] → self.get_public_url path T
        = self.client.baseUrl ++ chars "object" ++ chars "/public/"
            ++ self._get_final_path path) ∧
    (path ≠ [] → path.getLast? ≠ some '?' → T = [] →
        ¬(chars "?" <:+ self.get_public_url path T)) ∧
    (∀ v, pyGet T (chars "transform") = some v → v ≠ [] →
        self.get_public_url path T
          = self.client.baseUrl ++ chars "render/image" ++ chars "/public/"
              ++ self._get_final_path path ++ '?' :: urlencode T) ∧
    ((pyGet T (chars "transform") = none ∨ pyGet T (chars "transform") = some []) →
        self.get_public_url path T
          = self.client.baseUrl ++ chars "object" ++ chars "/public/"
              ++ self._get_final_path path
              ++ (if urlencode T = [] then [] else '?' :: urlencode T)) := by
  have hurl0 : T = [] → self.get_public_url path T
      = self.client.baseUrl ++ chars "object" ++ chars "/public/"
          ++ self._get_final_path path := by
    intro hT
    subst hT
    simp [SyncBucketActionsMixin.get_public_url, transformTruthy, pyGet, urlencode]
  refine ⟨?_, hurl0, ?_, ?_, ?_⟩
  · intro hT
    have henc := urlencode_ne_nil hT
    simp only [SyncBucketActionsMixin.get_public_url, if_neg henc]
    exact ⟨_, rfl⟩
  · intro hp hq hT
    rw [hurl0 hT]
    rintro ⟨t, ht⟩
    apply hq
    have hlast : (self.client.baseUrl ++ chars "object" ++ chars "/public/"
        ++ self._get_final_path path).getLast? = some '?' := by
      rw [← ht, show chars "?" = ['?'] from rfl]
      exact List.getLast?_concat _
    have hfin : (self._get_final_path path) ≠ [] := by
      intro h0
      exact hp (List.append_eq_nil.mp h0).2
    rw [List.getLast?_append_of_ne_nil _ hfin,
      SyncBucketActionsMixin._get_final_path,
      List.getLast?_append_of_ne_nil _ hp] at hlast
    exact hlast
  · intro v hv hvne
    have htt : transformTruthy T = true := by
      simp [transformTruthy, hv, hvne]
    have hT : T ≠ [] := by
      intro h0
      subst h0
      simp [pyGet] at hv
    have henc := urlencode_ne_nil hT
    simp only [SyncBucketActionsMixin.get_public_url, htt, if_true, if_neg henc]
  · intro h
    have htt : transformTruthy T = false := by
      rcases h with h | h <;> simp [transformTruthy, h]
    simp only [SyncBucketActionsMixin.get_public_url, htt, Bool.false_eq_true,
      if_false]

/-- Witness for C6's amended theorem: a non-empty transform-free option set
produces the encoded query as a suffix, and the empty option set produces
the bare `object/public` URL. -/
theorem C6_public_url_amended_witness :
    (('?' :: urlencode [(chars "width", chars "100")]) <:+
      exMixin.get_public_url (chars "p") [(chars "width", chars "100")]) ∧
    exMixin.get_public_url (chars "p") []
      = exMixin.client.baseUrl ++ chars "object" ++ chars "/public/"
          ++ exMixin._get_final_path (chars "p") :=
  ⟨(C6_public_url_amended exMixin (chars "p") [(chars "width", chars "100")]).1
      (by decide),
   (C6_public_url_amended exMixin (chars "p") []).2.1 rfl⟩

/-- The batch rewrite loop succeeds on every array whose items carry a
string `signedURL`, producing, item by item, the same dict with that field
replaced by the base URL prefixed to the value stripped of all leading
slashes. -/
theorem rewriteSignedURLs_ok (base : Str) (items : List JObj)
    (hall : ∀ item ∈ items, ∃ u, pyGet item (chars "signedURL") = some (.s u)) :
    ∃ out, rewriteSignedURLs base items = .ok out ∧
      List.Forall₂ (fun item o =>
        ∀ u, pyGet item (chars "signedURL") = some (.s u) →
          pyGet o (chars "signedURL")
            = some (.s (base ++ u.dropWhile (· = '/'))) ∧
          ∀ k, k ≠ chars "signedURL" → pyGet o k = pyGet item k) items out := by
  induction items with
  | nil => exact ⟨[], rfl, .nil⟩
  | cons item rest ih =>
    obtain ⟨u, hu⟩ := hall item (List.mem_cons_self _ _)
    obtain ⟨out, hout, hforall⟩ := ih (fun r hr => hall r (List.mem_cons_of_mem _ hr))
    refine ⟨pyInsert item (chars "signedURL") (.s (base ++ u.dropWhile (· = '/'))) :: out,
      ?_, ?_⟩
    · simp [rewriteSignedURLs, rewriteSignedURL, hu, hout, exceptOkBind]
    · refine List.Forall₂.cons (fun u' hu' => ?_) hforall
      have huu : u' = u := by
        rw [hu] at hu'
        exact (JVal.s.inj (Option.some.inj hu')).symm
      subst huu
      exact ⟨pyGet_pyInsert_self _ _ _, fun k hk => pyGet_pyInsert_ne _ _ _ _ hk⟩

/-- C7: for every non-empty batch of paths and every successful response
array whose items carry a string `signedURL`, `create_signed_urls` returns
the array with each item's `signedURL` rewritten to the configured base URL
followed by the value stripped of its leading slashes, all other fields of
each item unchanged. -/
theorem C7_signed_urls_rewrite (self : SyncBucketActionsMixin) (paths : List Str)
    (resp : Response) (items : List JObj)
    (hne : paths ≠ [])
    (hs : statusIsSuccess resp.statusCode = true)
    (hj : resp.json = some (.arr items))
    (hall : ∀ item ∈ items, ∃ u, pyGet item (chars "signedURL") = some (.s u)) :
    ∃ out, self.create_signed_urls paths resp = .ok out ∧
      List.Forall₂ (fun item o =>
        ∀ u, pyGet item (chars "signedURL") = some (.s u) →
          pyGet o (chars "signedURL")
            = some (.s (self.client.baseUrl ++ u.dropWhile (· = '/'))) ∧
          ∀ k, k ≠ chars "signedURL" → pyGet o k = pyGet item k) items out := by
  have h1 : _request resp = .ok resp := by simp [_request, hs]
  obtain ⟨out, hout, hforall⟩ := rewriteSignedURLs_ok self.client.baseUrl items hall
  refine ⟨out, ?_, hforall⟩
  have := hne
  simp [SyncBucketActionsMixin.create_signed_urls, h1, hj, hout,
    exceptOkBind, exceptErrorBind]

/-! ### Support lemmas for the upload claims -/

/-- Rewriting is the identity when no `cache-control` option is supplied. -/
theorem rewriteCacheControl_eq_of_none {fo : List (Str × Str)}
    (hv : pyGet fo (chars "cache-control") = none) : rewriteCacheControl fo = fo := by
  simp [rewriteCacheControl, hv]

/-- Rewriting is the identity on a falsy (empty) `cache-control` value. -/
theorem rewriteCacheControl_eq_of_nil {fo : List (Str × Str)}
    (hv : pyGet fo (chars "cache-control") = some []) : rewriteCacheControl fo = fo := by
  simp [rewriteCacheControl, hv]

/-- A truthy `cache-control` value is overwritten with `max-age=` ++ value. -/
theorem rewriteCacheControl_eq_of_ne_nil {fo : List (Str × Str)} {v : Str}
    (hv : pyGet fo (chars "cache-control") = some v) (hne : v ≠ []) :
    rewriteCacheControl fo
      = pyInsert fo (chars "cache-control") (chars "max-age=" ++ v) := by
  simp [rewriteCacheControl, hv, hne]

/-- The cache-control rewrite touches no other key. -/
theorem rewriteCacheControl_get_ne (fo : List (Str × Str)) (k : Str)
    (hk : k ≠ chars "cache-control") :
    pyGet (rewriteCacheControl fo) k = pyGet fo k := by
  cases hv : pyGet fo (chars "cache-control") with
  | none => rw [rewriteCacheControl_eq_of_none hv]
  | some v =>
    by_cases hne : v = []
    · rw [hne] at hv
      rw [rewriteCacheControl_eq_of_nil hv]
    · rw [rewriteCacheControl_eq_of_ne_nil hv hne]
      exact pyGet_pyInsert_ne _ _ _ _ hk

/-- The cache-control rewrite preserves key uniqueness. -/
theorem nodupKeys_rewriteCacheControl {fo : List (Str × Str)}
    (h : (fo.map Prod.fst).Nodup) :
    ((rewriteCacheControl fo).map Prod.fst).Nodup := by
  cases hv : pyGet fo (chars "cache-control") with
  | none => rw [rewriteCacheControl_eq_of_none hv]; exact h
  | some v =>
    by_cases hne : v = []
    · rw [hne] at hv
      rw [rewriteCacheControl_eq_of_nil hv]
      exact h
    · rw [rewriteCacheControl_eq_of_ne_nil hv hne]
      exact nodupKeys_pyInsert _ _ h

/-- The merged upload header map always has unique keys. -/
theorem nodupKeys_uploadHeaders (cH d fo : List (Str × Str)) :
    ((uploadHeaders cH d fo).map Prod.fst).Nodup :=
  nodupKeys_pyMerge _ _ (nodupKeys_pyMerge _ _ (nodupKeys_pyMerge _ _ List.nodup_nil))

/-- Whatever the payload or its fate, the post-call state of the caller's
options mapping is the cache-control-rewritten dict. -/
theorem buildUploadParts_fileOptionsAfter (cH d : List (Str × Str)) (path : Str)
    (file : UploadSource) (fo : Option (List (Str × Str)))
    (fs : Str → Option (List Nat)) :
    (buildUploadParts cH d path file fo fs).fileOptionsAfter
      = rewriteCacheControl (fo.getD []) := by
  rcases file with content | p <;> simp only [buildUploadParts]
  · rcases pyPop (pyMerge (pyMerge (pyMerge [] cH) d) (rewriteCacheControl (fo.getD [])))
        (chars "content-type") with _ | ⟨ct, hs⟩ <;> rfl
  · rcases fs p with _ | content
    · rfl
    · rcases pyPop (pyMerge (pyMerge (pyMerge [] cH) d) (rewriteCacheControl (fo.getD [])))
          (chars "content-type") with _ | ⟨ct, hs⟩ <;> rfl

/-- A path payload whose open succeeds records exactly one `opened` event. -/
theorem buildUploadParts_events_path (cH d : List (Str × Str)) (path p : Str)
    (fo : Option (List (Str × Str))) (fs : Str → Option (List Nat))
    (content : List Nat) (h : fs p = some content) :
    (buildUploadParts cH d path (.path p) fo fs).events = [.opened p] := by
  simp only [buildUploadParts, h]
  rcases pyPop (pyMerge (pyMerge (pyMerge [] cH) d) (rewriteCacheControl (fo.getD [])))
      (chars "content-type") with _ | ⟨ct, hs⟩ <;> rfl

/-- `upload` neither adds nor removes file-handle events beyond request
building. -/
theorem upload_events (self : SyncBucketActionsMixin) (path : Str)
    (file : UploadSource) (fo : Option (List (Str × Str)))
    (fs : Str → Option (List Nat)) (defaults : List (Str × Str)) (resp : Response) :
    (self.upload path file fo fs defaults resp).events
      = (buildUploadParts self.client.headers defaults path file fo fs).events := by
  simp only [SyncBucketActionsMixin.upload]
  rcases (buildUploadParts self.client.headers defaults path file fo fs).outcome
      with e | ⟨hs, part⟩
  · rfl
  · rcases _request resp with e | r <;> rfl

/-- `upload_to_signed_url` neither adds nor removes file-handle events beyond
request building. -/
theorem upload_to_signed_url_events (self : SyncBucketActionsMixin)
    (path token : Str) (file : UploadSource) (fo : Option (List (Str × Str)))
    (fs : Str → Option (List Nat)) (defaults : List (Str × Str)) (resp : Response) :
    (self.upload_to_signed_url path token file fo fs defaults resp).events
      = (buildUploadParts self.client.headers defaults path file fo fs).events := by
  simp only [SyncBucketActionsMixin.upload_to_signed_url]
  rcases (buildUploadParts self.client.headers defaults path file fo fs).outcome
      with e | ⟨hs, part⟩
  · rfl
  · rcases _request resp with e | r <;> rfl

/-- The caller's options mapping after `upload`. -/
theorem upload_fileOptionsAfter (self : SyncBucketActionsMixin) (path : Str)
    (file : UploadSource) (fo : Option (List (Str × Str)))
    (fs : Str → Option (List Nat)) (defaults : List (Str × Str)) (resp : Response) :
    (self.upload path file fo fs defaults resp).fileOptionsAfter
      = rewriteCacheControl (fo.getD []) := by
  rw [← buildUploadParts_fileOptionsAfter self.client.headers defaults path file fo fs]
  simp only [SyncBucketActionsMixin.upload]
  rcases (buildUploadParts self.client.headers defaults path file fo fs).outcome
      with e | ⟨hs, part⟩
  · rfl
  · rcases _request resp with e | r <;> rfl

/-- The caller's options mapping after `upload_to_signed_url`. -/
theorem upload_to_signed_url_fileOptionsAfter (self : SyncBucketActionsMixin)
    (path token : Str) (file : UploadSource) (fo : Option (List (Str × Str)))
    (fs : Str → Option (List Nat)) (defaults : List (Str × Str)) (resp : Response) :
    (self.upload_to_signed_url path token file fo fs defaults resp).fileOptionsAfter
      = rewriteCacheControl (fo.getD []) := by
  rw [← buildUploadParts_fileOptionsAfter self.client.headers defaults path file fo fs]
  simp only [SyncBucketActionsMixin.upload_to_signed_url]
  rcases (buildUploadParts self.client.headers defaults path file fo fs).outcome
      with e | ⟨hs, part⟩
  · rfl
  · rcases _request resp with e | r <;> rfl

/-- Witness for C7 on a two-item batch response. -/
theorem C7_signed_urls_rewrite_witness :
    ∃ out, exMixin.create_signed_urls [chars "p", chars "q"]
        ⟨200, some (.arr [[(chars "signedURL", .s (chars "/a")), (chars "k", .n 1)],
          [(chars "signedURL", .s (chars "b"))]])⟩
      = .ok out ∧
      List.Forall₂ (fun item o =>
        ∀ u, pyGet item (chars "signedURL") = some (.s u) →
          pyGet o (chars "signedURL")
            = some (.s (exMixin.client.baseUrl ++ u.dropWhile (· = '/'))) ∧
          ∀ k, k ≠ chars "signedURL" → pyGet o k = pyGet item k)
        [[(chars "signedURL", .s (chars "/a")), (chars "k", .n 1)],
          [(chars "signedURL", .s (chars "b"))]] out :=
  C7_signed_urls_rewrite exMixin [chars "p", chars "q"] _ _
    (by decide) (by decide) rfl
    (by
      intro item h
      rcases List.mem_cons.mp h with rfl | h2
      · exact ⟨chars "/a", rfl⟩
      · rcases List.mem_singleton.mp h2 with rfl
        exact ⟨chars "b", rfl⟩)

/-- C5 counterexample: a supplied `cache-control` option whose value is the
empty string is falsy, so the source skips the `max-age=` rewrite and the
merged headers carry the empty string unchanged — not `"max-age=" ++ v` as
the claim states for every supplied value. -/
theorem C5_counterexample :
    (buildUploadParts [] [(chars "content-type", chars "text/plain")] (chars "a/b")
        (.buf []) (some [(chars "cache-control", [])]) (fun _ => none)).outcome
      = .ok ([(chars "cache-control", [])],
          ⟨chars "file", chars "b", [], chars "text/plain"⟩) ∧
    pyGet [(chars "cache-control", ([] : Str))] (chars "cache-control")
      ≠ some (chars "max-age=" ++ []) := by
  decide

/-- C5 amended: for both upload operations the built headers are the
right-biased merge of the client's default headers, the built-in file-option
defaults, and the caller's (cache-control-rewritten) file options, with the
resolved `content-type` removed from the header map and attached to the
multipart part instead; every supplied `cache-control` option with a
non-empty value `v` yields the header `"max-age=" ++ v` (an empty value
passes through unchanged), and every other supplied option except
`content-type` passes through unchanged. -/
theorem C5_headers_amended (client defaults : List (Str × Str)) (path : Str)
    (file : UploadSource) (fo : List (Str × Str)) (fs : Str → Option (List Nat))
    (hnd : (fo.map Prod.fst).Nodup) (c : Str)
    (hct : pyGet (uploadHeaders client defaults fo) (chars "content-type") = some c)
    (hfile : ∀ p, file = .path p → (fs p).isSome = true) :
    ∃ hs part,
      (buildUploadParts client defaults path file (some fo) fs).outcome
        = .ok (hs, part) ∧
      part.contentType = c ∧
      part.filename = lastSegment path ∧
      pyGet hs (chars "content-type") = none ∧
      (∀ k, k ≠ chars "content-type" →
        pyGet hs k = pyGet (uploadHeaders client defaults fo) k) ∧
      (∀ v, pyGet fo (chars "cache-control") = some v → v ≠ [] →
        pyGet hs (chars "cache-control") = some (chars "max-age=" ++ v)) ∧
      (pyGet fo (chars "cache-control") = some [] →
        pyGet hs (chars "cache-control") = some []) ∧
      (∀ k w, pyGet fo k = some w → k ≠ chars "cache-control" →
        k ≠ chars "content-type" → pyGet hs k = some w) := by
  obtain ⟨H', hpop, hne, hnone⟩ := pyPop_of_pyGet hct
  have hndH := nodupKeys_uploadHeaders client defaults fo
  have hpop' : pyPop (pyMerge (pyMerge (pyMerge [] client) defaults)
      (rewriteCacheControl fo)) (chars "content-type") = some (c, H') := hpop
  have hcc_ne_ct : (chars "cache-control") ≠ (chars "content-type") := by decide
  have hgetH : ∀ k, k ≠ chars "cache-control" →
      pyGet (uploadHeaders client defaults fo) k
        = (pyGet fo k).or (pyGet (pyMerge (pyMerge [] client) defaults) k) := by
    intro k hk
    unfold uploadHeaders
    rw [pyGet_pyMerge _ _ _ (nodupKeys_rewriteCacheControl hnd),
      rewriteCacheControl_get_ne fo k hk]
  have hcc : ∀ v, pyGet fo (chars "cache-control") = some v → v ≠ [] →
      pyGet H' (chars "cache-control") = some (chars "max-age=" ++ v) := by
    intro v hv hvne
    rw [hne _ hcc_ne_ct]
    unfold uploadHeaders
    rw [pyGet_pyMerge _ _ _ (nodupKeys_rewriteCacheControl hnd),
      rewriteCacheControl_eq_of_ne_nil hv hvne, pyGet_pyInsert_self]
    rfl
  have hccnil : pyGet fo (chars "cache-control") = some [] →
      pyGet H' (chars "cache-control") = some [] := by
    intro hv
    rw [hne _ hcc_ne_ct]
    unfold uploadHeaders
    rw [pyGet_pyMerge _ _ _ (nodupKeys_rewriteCacheControl hnd),
      rewriteCacheControl_eq_of_nil hv, hv]
    rfl
  have hothers : ∀ k w, pyGet fo k = some w → k ≠ chars "cache-control" →
      k ≠ chars "content-type" → pyGet H' k = some w := by
    intro k w hw hkcc hkct
    rw [hne _ hkct, hgetH k hkcc, hw]
    rfl
  rcases file with content | p
  · refine ⟨H', ⟨chars "file", lastSegment path, content, c⟩, ?_, rfl, rfl,
      hnone hndH, hne, hcc, hccnil, hothers⟩
    simp [buildUploadParts, hpop']
  · obtain ⟨content, heq⟩ := Option.isSome_iff_exists.mp (hfile p rfl)
    refine ⟨H', ⟨chars "file", lastSegment path, content, c⟩, ?_, rfl, rfl,
      hnone hndH, hne, hcc, hccnil, hothers⟩
    simp [buildUploadParts, heq, hpop']

/-- Witness for C5's amended theorem: with default content-type
`text/plain` and caller options `\x7bcache-control: 60, x-upsert: true\x7d`,
the build succeeds and the headers carry `max-age=60`. -/
theorem C5_headers_amended_witness :
    ∃ hs part,
      (buildUploadParts [(chars "x-h", chars "1")]
          [(chars "content-type", chars "text/plain"),
            (chars "cache-control", chars "3600")]
          (chars "d/e.png") (.buf [9])
          (some [(chars "cache-control", chars "60"),
            (chars "x-upsert", chars "true")])
          (fun _ => none)).outcome = .ok (hs, part) ∧
      part.contentType = chars "text/plain" ∧
      pyGet hs (chars "cache-control") = some (chars "max-age=" ++ chars "60") ∧
      pyGet hs (chars "x-upsert") = some (chars "true") := by
  obtain ⟨hs, part, hok, hctp, _, _, _, hcc, _, hothers⟩ :=
    C5_headers_amended [(chars "x-h", chars "1")]
      [(chars "content-type", chars "text/plain"),
        (chars "cache-control", chars "3600")]
      (chars "d/e.png") (.buf [9])
      [(chars "cache-control", chars "60"), (chars "x-upsert", chars "true")]
      (fun _ => none) (by decide) (chars "text/plain") (by decide)
      (fun p h => nomatch h)
  exact ⟨hs, part, hok, hctp, hcc _ (by decide) (by decide),
    hothers _ _ (by decide) (by decide) (by decide)⟩

/-- C8: supplying the payload as an in-memory byte buffer and as a
filesystem path holding the same bytes produce the identical built
request — same headers, same multipart part (same filename, the final
segment of the relative path, same bytes, same resolved content-type). -/
theorem C8_buffer_path_equiv (client defaults : List (Str × Str)) (path : Str)
    (fo : Option (List (Str × Str))) (fs : Str → Option (List Nat))
    (p : Str) (content : List Nat) (h : fs p = some content) :
    (buildUploadParts client defaults path (.buf content) fo fs).outcome
      = (buildUploadParts client defaults path (.path p) fo fs).outcome ∧
    (∀ hs part,
      (buildUploadParts client defaults path (.buf content) fo fs).outcome
        = .ok (hs, part) →
      part.filename = lastSegment path ∧ part.content = content) := by
  constructor
  · rcases hpop : pyPop (pyMerge (pyMerge (pyMerge [] client) defaults)
        (rewriteCacheControl (fo.getD []))) (chars "content-type") with _ | ⟨ct, hs2⟩ <;>
      simp [buildUploadParts, h, hpop]
  · intro hs part hok
    rcases hpop : pyPop (pyMerge (pyMerge (pyMerge [] client) defaults)
        (rewriteCacheControl (fo.getD []))) (chars "content-type") with _ | ⟨ct, hs2⟩
    · simp [buildUploadParts, hpop] at hok
    · simp only [buildUploadParts, hpop] at hok
      have hpart : (⟨chars "file", lastSegment path, content, ct⟩ : MultipartFile)
          = part := congrArg Prod.snd (Except.ok.inj hok)
      rw [← hpart]
      exact ⟨rfl, rfl⟩

/-- Witness for C8: at a concrete filesystem the two payload shapes build
the same outcome. -/
theorem C8_buffer_path_equiv_witness :
    (buildUploadParts [] [(chars "content-type", chars "text/plain")] (chars "a/b")
        (.buf [7]) none exFs).outcome
      = (buildUploadParts [] [(chars "content-type", chars "text/plain")] (chars "a/b")
        (.path (chars "/tmp/f")) none exFs).outcome :=
  (C8_buffer_path_equiv [] [(chars "content-type", chars "text/plain")] (chars "a/b")
    none exFs (chars "/tmp/f") [7] rfl).1

/-- C9 (the code against the claim): for a filesystem-path payload whose
open succeeds, both upload operations record exactly one `opened` event and
no `closed` event — the source never closes the handle it opens, on any
exit path, success or failure. -/
theorem C9_path_handle_never_closed (self : SyncBucketActionsMixin)
    (path p token : Str) (fo : Option (List (Str × Str)))
    (fs : Str → Option (List Nat)) (defaults : List (Str × Str)) (resp : Response)
    (content : List Nat) (h : fs p = some content) :
    (self.upload path (.path p) fo fs defaults resp).events = [.opened p] ∧
    (self.upload_to_signed_url path token (.path p) fo fs defaults resp).events
      = [.opened p] ∧
    FileEvent.closed p ∉ (self.upload path (.path p) fo fs defaults resp).events ∧
    FileEvent.closed p ∉
      (self.upload_to_signed_url path token (.path p) fo fs defaults resp).events := by
  have h1 := upload_events self path (.path p) fo fs defaults resp
  have h2 := upload_to_signed_url_events self path token (.path p) fo fs defaults resp
  have hb := buildUploadParts_events_path self.client.headers defaults path p fo fs
    content h
  rw [h1, h2, hb]
  refine ⟨rfl, rfl, ?_, ?_⟩ <;> simp

/-- Witness for C9 at a concrete path payload and a failing response: the
handle is opened and never closed. -/
theorem C9_path_handle_never_closed_witness :
    (exMixin.upload (chars "f/g.txt") (.path (chars "/tmp/f")) none exFs []
        exErrResp).events = [FileEvent.opened (chars "/tmp/f")] ∧
    FileEvent.closed (chars "/tmp/f") ∉
      (exMixin.upload (chars "f/g.txt") (.path (chars "/tmp/f")) none exFs []
        exErrResp).events := by
  obtain ⟨h1, _, h3, _⟩ := C9_path_handle_never_closed exMixin (chars "f/g.txt")
    (chars "/tmp/f") (chars "tok") none exFs [] exErrResp [7] rfl
  exact ⟨h1, h3⟩

/-- C10: both upload operations mutate the caller-supplied options mapping
in place — after the call it is the cache-control-rewritten dict, whose
`cache-control` entry equals `"max-age=" ++ v` for the original truthy
value `v` (here `fileOptionsAfter` is the post-call state of the very
object the caller passed, which the source assigns into). -/
theorem C10_caller_options_mutated (self : SyncBucketActionsMixin)
    (path token : Str) (file : UploadSource) (fs : Str → Option (List Nat))
    (defaults : List (Str × Str)) (resp : Response)
    (fo : List (Str × Str)) (v : Str)
    (hv : pyGet fo (chars "cache-control") = some v) (hne : v ≠ []) :
    (self.upload path file (some fo) fs defaults resp).fileOptionsAfter
      = pyInsert fo (chars "cache-control") (chars "max-age=" ++ v) ∧
    pyGet (self.upload path file (some fo) fs defaults resp).fileOptionsAfter
      (chars "cache-control") = some (chars "max-age=" ++ v) ∧
    (self.upload_to_signed_url path token file (some fo) fs defaults
        resp).fileOptionsAfter
      = pyInsert fo (chars "cache-control") (chars "max-age=" ++ v) ∧
    pyGet (self.upload_to_signed_url path token file (some fo) fs defaults
        resp).fileOptionsAfter
      (chars "cache-control") = some (chars "max-age=" ++ v) := by
  have hrw : rewriteCacheControl ((some fo).getD [])
      = pyInsert fo (chars "cache-control") (chars "max-age=" ++ v) := by
    rw [Option.getD_some]
    exact rewriteCacheControl_eq_of_ne_nil hv hne
  rw [upload_fileOptionsAfter, upload_to_signed_url_fileOptionsAfter, hrw]
  exact ⟨rfl, pyGet_pyInsert_self _ _ _, rfl, pyGet_pyInsert_self _ _ _⟩

/-- Witness for C10: a caller dict with `cache-control: 60` holds
`max-age=60` after the call, even when the request failed. -/
theorem C10_caller_options_mutated_witness :
    pyGet (exMixin.upload (chars "a/b") (.buf [1])
        (some [(chars "cache-control", chars "60")]) exFs []
        exErrResp).fileOptionsAfter (chars "cache-control")
      = some (chars "max-age=" ++ chars "60") := by
  obtain ⟨_, h2, _, _⟩ := C10_caller_options_mutated exMixin (chars "a/b")
    (chars "tok") (.buf [1]) exFs [] exErrResp
    [(chars "cache-control", chars "60")] (chars "60") (by decide) (by decide)
  exact h2

end Storage3
